import Mathlib

/-!
Verification of the UltimateCRT signal bot (`bot.py`) against its
specification.  The OHLCV data model, the indicator library (`ema`,
`detect_fvg`, `detect_ob`, `get_swing_levels`), the signal evaluator
(lines 77-109 of `analyze_symbol`), the state store
(`get_last_signal` / `save_last_signal`) and the per-symbol pass
(`analyze_symbol`) are embedded as executable Lean definitions over
exact rationals.  Pandas NaN / missing values are modelled as `Option`,
and the `IndexError` that `ob_bull.iloc[-1]` raises on an empty
filtered series is modelled as an explicit error outcome.
-/

set_option maxRecDepth 8000

/- Batteries marks the rational-number field operations `@[irreducible]`;
re-allow unfolding them locally so that concrete runs of the embedded
program can be settled by `decide` (the kernel never respected the
reducibility hint anyway). -/
attribute [local semireducible] Rat.mul Rat.inv Rat.add Rat.sub Rat.ofScientific

/-- One OHLCV candle.  `opn` is the `open` column (Lean reserves `open`). -/
structure Candle where
  timestamp : ℕ
  opn : ℚ
  high : ℚ
  low : ℚ
  close : ℚ
  volume : ℚ
deriving DecidableEq

/-- Default candle used by the total indexing helper `getC`. -/
def cd : Candle := ⟨0, 0, 0, 0, 0, 0⟩

/-- Positional indexing into the candle frame (`df.iloc[i]`). -/
def getC (df : List Candle) (i : ℕ) : Candle := df.getD i cd

def closes (df : List Candle) : List ℚ := df.map Candle.close

def lows (df : List Candle) : List ℚ := df.map Candle.low

def highs (df : List Candle) : List ℚ := df.map Candle.high

def volumes (df : List Candle) : List ℚ := df.map Candle.volume

/-- One step of the recursive EMA: `y = (1-α)·prev + α·x`. -/
def emaStep (a prev x : ℚ) : ℚ := (1 - a) * prev + a * x

/-- `ema(series, period)` — `series.ewm(span=period, adjust=False).mean()`:
the recursive exponential moving average with `α = 2/(period+1)`;
the first output equals the first input. -/
def ema (series : List ℚ) (period : ℕ) : List ℚ :=
  match series with
  | [] => []
  | x :: xs => List.scanl (emaStep (2 / ((period : ℚ) + 1))) x xs

/-- Forward fill with an explicit carry (`Series.ffill()`):
a defined entry replaces the carry, an undefined entry repeats it. -/
def ffillAux : Option ℚ → List (Option ℚ) → List (Option ℚ)
  | _, [] => []
  | c, x :: xs =>
    match x with
    | some v => some v :: ffillAux (some v) xs
    | none => c :: ffillAux c xs

def ffill (l : List (Option ℚ)) : List (Option ℚ) := ffillAux none l

/-- Bullish fair-value-gap condition at position `i`:
`df['low'] > df['high'].shift(2)` (false at positions 0 and 1,
where the shifted value is NaN). -/
def fvgBullCond (df : List Candle) (i : ℕ) : Bool :=
  decide (2 ≤ i) && decide ((getC df (i - 2)).high < (getC df i).low)

/-- Bearish fair-value-gap condition: `df['high'] < df['low'].shift(2)`. -/
def fvgBearCond (df : List Candle) (i : ℕ) : Bool :=
  decide (2 ≤ i) && decide ((getC df i).high < (getC df (i - 2)).low)

/-- `df['low'].where(bullish)` before the forward fill. -/
def fvgUpRaw (df : List Candle) : List (Option ℚ) :=
  (List.range df.length).map
    (fun i => if fvgBullCond df i then some ((getC df i).low) else none)

/-- `df['high'].where(bearish)` before the forward fill. -/
def fvgDownRaw (df : List Candle) : List (Option ℚ) :=
  (List.range df.length).map
    (fun i => if fvgBearCond df i then some ((getC df i).high) else none)

/-- Bullish gap-floor series of `detect_fvg`. -/
def fvgUpList (df : List Candle) : List (Option ℚ) := ffill (fvgUpRaw df)

/-- Bearish gap-ceiling series of `detect_fvg`. -/
def fvgDownList (df : List Candle) : List (Option ℚ) := ffill (fvgDownRaw df)

/-- `detect_fvg(df)` — the pair of forward-filled gap series. -/
def detect_fvg (df : List Candle) : List (Option ℚ) × List (Option ℚ) :=
  (fvgUpList df, fvgDownList df)

/-- `fvg_up.iloc[-1]`: NaN (and the empty frame) modelled as `none`. -/
def fvgUpLast (df : List Candle) : Option ℚ := (fvgUpList df).getLast?.getD none

def fvgDownLast (df : List Candle) : Option ℚ := (fvgDownList df).getLast?.getD none

/-- `bull_ob` at position `i`: `close[i] > open[i]` and
`close[i+1] > high[i]` (the shifted close is NaN at the last bar,
making the comparison false). -/
def bullOBAt (df : List Candle) (i : ℕ) : Bool :=
  decide ((getC df i).close > (getC df i).opn) && decide (i + 1 < df.length) &&
    decide ((getC df (i + 1)).close > (getC df i).high)

/-- `bear_ob` at position `i`: `close[i] < open[i]` and `close[i+1] < low[i]`. -/
def bearOBAt (df : List Candle) (i : ℕ) : Bool :=
  decide ((getC df i).close < (getC df i).opn) && decide (i + 1 < df.length) &&
    decide ((getC df (i + 1)).close < (getC df i).low)

/-- `bull_ob.shift(1).fillna(False)` at position `j`. -/
def obMaskBull (df : List Candle) (j : ℕ) : Bool :=
  decide (1 ≤ j) && bullOBAt df (j - 1)

def obMaskBear (df : List Candle) (j : ℕ) : Bool :=
  decide (1 ≤ j) && bearOBAt df (j - 1)

/-- `df['low'][bull_ob.shift(1).fillna(False)].ffill()` — the boolean-mask
selection keeps only the rows where the mask holds, so the result is the
*filtered* sequence of lows (the `ffill` is a no-op on it). -/
def obBullList (df : List Candle) : List ℚ :=
  ((List.range df.length).filter (obMaskBull df)).map (fun j => (getC df j).low)

def obBearList (df : List Candle) : List ℚ :=
  ((List.range df.length).filter (obMaskBear df)).map (fun j => (getC df j).high)

/-- `detect_ob(df)` — the pair of filtered order-block level sequences. -/
def detect_ob (df : List Candle) : List ℚ × List ℚ :=
  (obBullList df, obBearList df)

/-- `ob_bull.iloc[-1]`: `none` when the filtered series is empty
(in pandas this raises `IndexError`). -/
def obBullLast (df : List Candle) : Option ℚ := (obBullList df).getLast?

def obBearLast (df : List Candle) : Option ℚ := (obBearList df).getLast?

/-- Minimum of a list, `none` on the empty list. -/
def listMin : List ℚ → Option ℚ
  | [] => none
  | x :: xs => some (xs.foldl min x)

/-- Maximum of a list, `none` on the empty list. -/
def listMax : List ℚ → Option ℚ
  | [] => none
  | x :: xs => some (xs.foldl max x)

/-- `df['low'].rolling(window=5).min().iloc[-1]`: NaN when fewer
than 5 bars exist. -/
def swingLowLast (df : List Candle) : Option ℚ :=
  if df.length < 5 then none else listMin ((lows df).drop (df.length - 5))

/-- `df['high'].rolling(window=5).max().iloc[-1]`. -/
def swingHighLast (df : List Candle) : Option ℚ :=
  if df.length < 5 then none else listMax ((highs df).drop (df.length - 5))

/-- `get_swing_levels(df)` (with the default `length=5`). -/
def get_swing_levels (df : List Candle) : Option ℚ × Option ℚ :=
  (swingLowLast df, swingHighLast df)

/-- `df['volume'].rolling(n).mean().iloc[-1]`: mean of the last `n`
entries, NaN when fewer than `n` exist. -/
def rollingMeanLast (n : ℕ) (l : List ℚ) : Option ℚ :=
  if n = 0 ∨ l.length < n then none
  else some (((l.drop (l.length - n)).foldl (· + ·) 0) / (n : ℚ))

/-- The last candle of the frame (`df.iloc[-1]`, total via a default). -/
def lastCandle (df : List Candle) : Candle := df.getLast?.getD cd

/-- `p = close.iloc[-1]`. -/
def lastClose (df : List Candle) : ℚ := (lastCandle df).close

/-- `v = df['volume'].iloc[-1]`. -/
def lastVolume (df : List Candle) : ℚ := (lastCandle df).volume

/-- `ema200.iloc[-1]` (0 as the unused total default on the empty frame). -/
def ema200Last (df : List Candle) : ℚ := (ema (closes df) 200).getLast?.getD 0

/-- `vol_spike = v > vol_avg.iloc[-1] * 1.5` (false when the rolling
mean is NaN, as the NaN comparison is false in pandas). -/
def volSpikeB (df : List Candle) : Bool :=
  match rollingMeanLast 20 (volumes df) with
  | some m => decide (lastVolume df > m * (3 / 2))
  | none => false

/-- `fvg_b = not isnan(fvg_up.iloc[-1]) and p >= fvg_up.iloc[-1]`. -/
def fvgBHold (df : List Candle) : Bool :=
  match fvgUpLast df with
  | some f => decide (lastClose df ≥ f)
  | none => false

/-- `fvg_s = not isnan(fvg_down.iloc[-1]) and p <= fvg_down.iloc[-1]`. -/
def fvgSHold (df : List Candle) : Bool :=
  match fvgDownLast df with
  | some f => decide (lastClose df ≤ f)
  | none => false

/-- `ob_b` when the filtered bull-OB series is nonempty. -/
def obBHold (df : List Candle) : Bool :=
  match obBullLast df with
  | some b => decide (lastClose df ≥ b)
  | none => false

/-- `ob_s` when the filtered bear-OB series is nonempty. -/
def obSHold (df : List Candle) : Bool :=
  match obBearLast df with
  | some b => decide (lastClose df ≤ b)
  | none => false

/-- `swing_l` as the number used in the stop-loss formula (the rolling
minimum is always defined on the paths that reach it, since a volume
spike needs at least 20 bars). -/
def swingLowD (df : List Candle) : ℚ := (swingLowLast df).getD 0

def swingHighD (df : List Candle) : ℚ := (swingHighLast df).getD 0

inductive Direction
  | bullish
  | bearish
deriving DecidableEq

/-- The ephemeral signal of one evaluation (direction, entry, stop, target). -/
structure Signal where
  dir : Direction
  entry : ℚ
  sl : ℚ
  tp : ℚ
deriving DecidableEq

/-- Outcome of the indicator/decision block of `analyze_symbol`
(lines 77-109): either a decision (possibly no signal), or the
`IndexError` raised by `ob_bull.iloc[-1]` / `ob_bear.iloc[-1]` when the
corresponding filtered order-block series is empty. -/
inductive EvalResult
  | ok (s : Option Signal)
  | indexError
deriving DecidableEq

/-- The signal built by the BULLISH branch (lines 99-102):
`sl = swing_l - p*0.0005`, `risk = p - sl`, `tp = p + risk*2.5`. -/
def bullSignalOf (df : List Candle) : Signal :=
  { dir := Direction.bullish
    entry := lastClose df
    sl := swingLowD df - lastClose df * (1 / 2000)
    tp := lastClose df +
      (lastClose df - (swingLowD df - lastClose df * (1 / 2000))) * (5 / 2) }

/-- The signal built by the BEARISH branch (lines 106-109):
`sl = swing_h + p*0.0005`, `risk = sl - p`, `tp = p - risk*2.5`. -/
def bearSignalOf (df : List Candle) : Signal :=
  { dir := Direction.bearish
    entry := lastClose df
    sl := swingHighD df + lastClose df * (1 / 2000)
    tp := lastClose df -
      ((swingHighD df + lastClose df * (1 / 2000)) - lastClose df) * (5 / 2) }

/-- The signal evaluator: lines 77-109 of `analyze_symbol`.  Both
`ob_bull.iloc[-1]` and `ob_bear.iloc[-1]` are read unconditionally
(lines 90 and 92), so either filtered series being empty raises. -/
def evaluate (df : List Candle) : EvalResult :=
  match obBullLast df, obBearLast df with
  | some obv, some osv =>
    if lastClose df > ema200Last df ∧ volSpikeB df = true ∧ fvgBHold df = true ∧
        lastClose df ≥ obv then
      EvalResult.ok (some (bullSignalOf df))
    else if lastClose df < ema200Last df ∧ volSpikeB df = true ∧ fvgSHold df = true ∧
        lastClose df ≤ osv then
      EvalResult.ok (some (bearSignalOf df))
    else EvalResult.ok none
  | _, _ => EvalResult.indexError

/-- The conjunction guarding the BULLISH branch (line 98), with the
order-block conjunct in its "defined and `p` at or above it" reading. -/
def bullConds (df : List Candle) : Prop :=
  lastClose df > ema200Last df ∧ volSpikeB df = true ∧ fvgBHold df = true ∧
    obBHold df = true

instance (df : List Candle) : Decidable (bullConds df) := by
  unfold bullConds; infer_instance

/-- One stored history entry: `{"timestamp": str(t), "direction": d}`. -/
structure Entry where
  timestamp : ℕ
  direction : Direction
deriving DecidableEq

/-- The persisted history mapping of `last_signal.json`. -/
abbrev History := List (String × Entry)

/-- `history.get(sym)` — association lookup. -/
def lookupH : History → String → Option Entry
  | [], _ => none
  | (k, v) :: rest, s => if k = s then some v else lookupH rest s

/-- `save_last_signal`: replace the entry at the key, append if absent
(Python dict update plus `json.dump`). -/
def save_last_signal (h : History) (sym : String) (t : ℕ) (d : Direction) : History :=
  match h with
  | [] => [(sym, ⟨t, d⟩)]
  | (k, v) :: rest =>
    if k = sym then (sym, ⟨t, d⟩) :: rest else (k, v) :: save_last_signal rest sym t d

/-- I/O environment of one pass: whether `DISCORD_WEBHOOK` is set and
whether the HTTP post to it would succeed. -/
structure Env where
  webhookPresent : Bool
  deliveryOk : Bool
deriving DecidableEq

/-- Observable outcome of one `analyze_symbol` call: the computed
decision, whether the pass died with an exception, the alert that
actually went out (timestamp and direction), and the history state
after the pass. -/
structure PassOutput where
  decision : Option Signal
  errored : Bool
  alerted : Option (ℕ × Direction)
  history : History
deriving DecidableEq

/-- `analyze_symbol` after a successful fetch: length guard (line 71),
the evaluator, then deduplication, `send_discord_alert` and
`save_last_signal` (lines 112-127).  A notification goes out only when
the webhook URL is configured and the post succeeds, but the history is
written whenever the dedup check passes. -/
def analyze_symbol (env : Env) (hist : History) (sym : String) (df : List Candle) :
    PassOutput :=
  if df.length < 200 then ⟨none, false, none, hist⟩
  else
    match evaluate df with
    | EvalResult.indexError => ⟨none, true, none, hist⟩
    | EvalResult.ok none => ⟨none, false, none, hist⟩
    | EvalResult.ok (some sig) =>
      let t := (lastCandle df).timestamp
      let fresh :=
        match lookupH hist sym with
        | some e => !(decide (e.timestamp = t) && decide (e.direction = sig.dir))
        | none => true
      if fresh then
        ⟨some sig, false,
          if env.webhookPresent && env.deliveryOk then some (t, sig.dir) else none,
          save_last_signal hist sym t sig.dir⟩
      else ⟨some sig, false, none, hist⟩

/-- A sequence of passes for one symbol, threading the history file;
returns the alert emitted by each pass. -/
def runPasses (env : Env) (sym : String) :
    History → List (List Candle) → List (Option (ℕ × Direction))
  | _, [] => []
  | h, df :: rest =>
    (analyze_symbol env h sym df).alerted ::
      runPasses env sym (analyze_symbol env h sym df).history rest

/-! ### Concrete candle frames used as witnesses and counterexamples -/

/-- A flat candle: open = close = 10, high 11, low 9, volume 10. -/
def flatC (i : ℕ) : Candle := ⟨i, 10, 11, 9, 10, 10⟩

/-- Bars 1-208 of the frame `dfA`. -/
def dfAtail : List Candle :=
  [⟨1, 47/5, 19/2, 89/10, 9, 10⟩,
   ⟨2, 9, 97/10, 179/20, 48/5, 10⟩,
   ⟨3, 48/5, 51/5, 19/2, 10, 10⟩,
   ⟨4, 10, 53/5, 49/5, 52/5, 10⟩,
   ⟨5, 52/5, 54/5, 103/10, 21/2, 10⟩] ++
  (List.range 203).map (fun i => flatC (i + 6))

/-- The first 209 bars of the frame `dfA`: a confirmed bearish order
block at bar 0, confirmed bullish order blocks at bars 2 and 3, a
bullish fair-value gap at bars 4 and 5, then flat bars. -/
def dfAinit : List Candle := ⟨0, 10, 21/2, 47/5, 19/2, 10⟩ :: dfAtail

/-- The final bar: close 12, above every earlier level, with a volume
spike (volume 100 against a flat base of 10). -/
def lastBarA : Candle := ⟨209, 11, 121/10, 109/10, 12, 100⟩

/-- `lastBarA` with only its timestamp changed (209 → 999). -/
def lastBarB : Candle := ⟨999, 11, 121/10, 109/10, 12, 100⟩

/-- A 210-bar frame engineered so the last bar fires the BULLISH branch. -/
def dfA : List Candle := dfAinit ++ [lastBarA]

/-- `dfA` with only the last bar's timestamp changed (209 → 999). -/
def dfB : List Candle := dfAinit ++ [lastBarB]

/-- Bars 1-208 of `dfCrash`. -/
def dfCrashTail : List Candle :=
  [flatC 1,
   ⟨2, 9, 97/10, 179/20, 48/5, 10⟩,
   ⟨3, 48/5, 51/5, 19/2, 10, 10⟩,
   ⟨4, 10, 53/5, 49/5, 52/5, 10⟩,
   ⟨5, 52/5, 54/5, 103/10, 21/2, 10⟩] ++
  (List.range 203).map (fun i => flatC (i + 6))

/-- Like `dfAinit` but with the two bearish bars replaced by flat ones,
so no bearish order block is ever confirmed. -/
def dfCrashInit : List Candle := flatC 0 :: dfCrashTail

/-- A 210-bar frame where every bullish condition holds at the last bar
but no bearish order block was ever confirmed. -/
def dfCrash : List Candle := dfCrashInit ++ [lastBarA]

/-- The signal `evaluate` produces on `dfA` (and on `dfB`). -/
def sigA : Signal := ⟨Direction.bullish, 12, 4497/500, 3903/200⟩

/-- 205 flat candles: no order-block candle is ever confirmed. -/
def dfFlat : List Candle := (List.range 205).map flatC

/-- Two candles forming one confirmed bullish order block at position 0,
whose own low (1/2) differs from the confirming candle's low (6/5). -/
def dfOB : List Candle :=
  [⟨0, 1, 2, 1/2, 3/2, 1⟩, ⟨1, 3/2, 3, 6/5, 5/2, 1⟩]

/-- Four candles with one confirmed bullish order block (at 0) and one
confirmed bearish order block (at 2). -/
def dfW : List Candle :=
  [⟨0, 1, 2, 1, 2, 1⟩, ⟨1, 2, 3, 2, 3, 1⟩,
   ⟨2, 3, 3, 5/2, 5/2, 1⟩, ⟨3, 5/2, 5/2, 2, 2, 1⟩]

/-- Four candles with a bullish fair-value gap at position 2 only. -/
def dfGap : List Candle :=
  [⟨0, 1, 2, 1, 1, 1⟩, ⟨1, 1, 3, 2, 1, 1⟩,
   ⟨2, 1, 4, 5/2, 1, 1⟩, ⟨3, 1, 4, 2, 1, 1⟩]

/-- Webhook configured and reachable. -/
def envOn : Env := ⟨true, true⟩

/-- No webhook URL configured. -/
def envOff : Env := ⟨false, true⟩

/-- Webhook configured but the HTTP post fails. -/
def envFail : Env := ⟨true, false⟩

/-! ## Generic list lemmas -/

/-- The last element of a `scanl` is the corresponding `foldl`. -/
theorem getLast?_scanl {α β : Type} (f : β → α → β) (l : List α) :
    ∀ b : β, (List.scanl f b l).getLast? = some (List.foldl f b l) := by
  induction l with
  | nil => intro b; rfl
  | cons x xs ih =>
    intro b
    rw [List.scanl_cons, List.singleton_append]
    cases h : List.scanl f (f b x) xs with
    | nil => exact absurd (ih (f b x)) (by simp [h])
    | cons y ys =>
      rw [List.getLast?_cons_cons, ← h, ih (f b x)]
      rfl

/-- Indexing a map over `List.range`. -/
theorem getD_map_range {γ : Type} (n : ℕ) (f : ℕ → γ) (d : γ) (i : ℕ) (h : i < n) :
    ((List.range n).map f).getD i d = f i := by
  rw [List.getD_eq_getElem?_getD, List.getElem?_map, List.getElem?_range h]
  rfl

/-- Dropping strictly fewer elements than the length keeps the last one. -/
theorem getLast?_drop_of_lt {γ : Type} (l : List γ) (k : ℕ) (h : k < l.length) :
    (l.drop k).getLast? = l.getLast? := by
  conv_rhs => rw [← List.take_append_drop k l]
  rw [List.getLast?_append_of_ne_nil]
  intro hnil
  rw [List.drop_eq_nil_iff] at hnil
  omega

/-- A `foldl min` is below its initial accumulator. -/
theorem foldl_min_le_init (xs : List ℚ) : ∀ a : ℚ, List.foldl min a xs ≤ a := by
  induction xs with
  | nil => intro a; simp
  | cons x xs ih =>
    intro a
    rw [List.foldl_cons]
    exact le_trans (ih (min a x)) (min_le_left a x)

/-- A `foldl min` is below every list element. -/
theorem foldl_min_le_mem (xs : List ℚ) :
    ∀ (a y : ℚ), y ∈ xs → List.foldl min a xs ≤ y := by
  induction xs with
  | nil => intro a y hy; cases hy
  | cons x xs ih =>
    intro a y hy
    rw [List.foldl_cons]
    rcases List.mem_cons.mp hy with h | h
    · subst h
      exact le_trans (foldl_min_le_init xs (min a y)) (min_le_right a y)
    · exact ih (min a x) y h

/-- `listMin` is a lower bound for the members of the list. -/
theorem listMin_le_of_mem (l : List ℚ) (m y : ℚ) (hm : listMin l = some m) (hy : y ∈ l) :
    m ≤ y := by
  cases l with
  | nil => cases hy
  | cons x xs =>
    have hmx : m = List.foldl min x xs := by
      simpa [listMin] using hm.symm
    subst hmx
    rcases List.mem_cons.mp hy with h | h
    · subst h; exact foldl_min_le_init xs y
    · exact foldl_min_le_mem xs x y h

/-- The last entry of a filtered `List.range` is the largest index that
satisfies the predicate. -/
theorem getLast?_filter_range (p : ℕ → Bool) :
    ∀ (n m : ℕ), m < n → p m = true → (∀ j, j < n → m < j → p j = false) →
      ((List.range n).filter p).getLast? = some m := by
  intro n
  induction n with
  | zero => intro m hm; omega
  | succ k ih =>
    intro m hm hp hlast
    rw [List.range_succ, List.filter_append]
    by_cases hmk : m = k
    · subst hmk
      have : List.filter p [m] = [m] := by simp [List.filter, hp]
      rw [this, List.getLast?_concat]
    · have hmk2 : m < k := by omega
      have hk : p k = false := hlast k (by omega) (by omega)
      have : List.filter p [k] = [] := by simp [List.filter, hk]
      rw [this, List.append_nil]
      exact ih m hmk2 hp (fun j hj hmj => hlast j (by omega) hmj)

/-! ## Forward-fill lemmas -/

theorem ffillAux_length (l : List (Option ℚ)) : ∀ c, (ffillAux c l).length = l.length := by
  induction l with
  | nil => intro c; rfl
  | cons x xs ih =>
    intro c
    cases x <;> simp [ffillAux, ih]

/-- The defining recurrence of the forward fill: a defined raw entry is
kept, an undefined one repeats the previous output (the carry at
position 0). -/
theorem ffillAux_getD (l : List (Option ℚ)) :
    ∀ (c : Option ℚ) (i : ℕ), i < l.length →
      (ffillAux c l).getD i none =
        if (l.getD i none).isSome = true then l.getD i none
        else if i = 0 then c else (ffillAux c l).getD (i - 1) none := by
  induction l with
  | nil => intro c i hi; cases hi
  | cons x xs ih =>
    intro c i hi
    cases i with
    | zero =>
      cases x <;> simp [ffillAux]
    | succ j =>
      have hj : j < xs.length := by simpa using hi
      cases x with
      | none =>
        simp only [ffillAux, List.getD_cons_succ]
        rw [ih c j hj]
        cases hij : j with
        | zero => simp [ffillAux]
        | succ j2 => simp [ffillAux]
      | some v =>
        simp only [ffillAux, List.getD_cons_succ]
        rw [ih (some v) j hj]
        cases hij : j with
        | zero => simp [ffillAux]
        | succ j2 => simp [ffillAux]

/-! ## EMA lemmas -/

/-- An EMA step stays below any bound that dominates both inputs. -/
theorem emaStep_le_of_le (a hi prev x : ℚ) (h0 : 0 ≤ a) (h1 : a ≤ 1)
    (hp : prev ≤ hi) (hx : x ≤ hi) : emaStep a prev x ≤ hi := by
  unfold emaStep
  nlinarith [mul_le_mul_of_nonneg_left hp (show (0:ℚ) ≤ 1 - a by linarith),
    mul_le_mul_of_nonneg_left hx h0]

/-- An EMA step stays above any bound below both inputs. -/
theorem le_emaStep_of_le (a lo prev x : ℚ) (h0 : 0 ≤ a) (h1 : a ≤ 1)
    (hp : lo ≤ prev) (hx : lo ≤ x) : lo ≤ emaStep a prev x := by
  unfold emaStep
  nlinarith [mul_le_mul_of_nonneg_left hp (show (0:ℚ) ≤ 1 - a by linarith),
    mul_le_mul_of_nonneg_left hx h0]

/-- Folding EMA steps over a bounded list stays bounded. -/
theorem foldl_emaStep_le (a hi : ℚ) (h0 : 0 ≤ a) (h1 : a ≤ 1) (l : List ℚ) :
    ∀ b : ℚ, b ≤ hi → (∀ x ∈ l, x ≤ hi) → List.foldl (emaStep a) b l ≤ hi := by
  induction l with
  | nil => intro b hb _; simpa using hb
  | cons x xs ih =>
    intro b hb hx
    rw [List.foldl_cons]
    exact ih (emaStep a b x)
      (emaStep_le_of_le a hi b x h0 h1 hb (hx x (List.mem_cons_self x xs)))
      (fun y hy => hx y (List.mem_cons_of_mem x hy))

/-- The last EMA output over a nonempty series is the EMA fold. -/
theorem ema_cons_getLast (x0 : ℚ) (xs : List ℚ) (p : ℕ) :
    (ema (x0 :: xs) p).getLast? =
      some (List.foldl (emaStep (2 / ((p : ℚ) + 1))) x0 xs) := by
  unfold ema
  exact getLast?_scanl _ xs x0

/-- On a frame whose first 200+ closes are at most 21/2 and whose final
close is 12, the final EMA-200 stays strictly below 12. -/
theorem ema200Last_lt_of_bounded (c0 : Candle) (rest : List Candle) (c1 : Candle)
    (hc0 : c0.close ≤ 21/2) (hbound : ∀ x ∈ closes rest, x ≤ 21/2)
    (hlast : c1.close = 12) :
    ema200Last ((c0 :: rest) ++ [c1]) < 12 := by
  have hck : closes ((c0 :: rest) ++ [c1]) = c0.close :: (closes rest ++ [c1.close]) := by
    simp [closes]
  unfold ema200Last
  rw [hck, ema_cons_getLast, Option.getD_some, List.foldl_append, List.foldl_cons,
    List.foldl_nil, hlast]
  have ha : (2 : ℚ) / (((200 : ℕ) : ℚ) + 1) = 2 / 201 := by norm_num
  rw [ha]
  have hy : List.foldl (emaStep (2 / 201)) c0.close (closes rest) ≤ 21/2 := by
    apply foldl_emaStep_le _ _ (by norm_num) (by norm_num) _ _ hc0 hbound
  rw [emaStep]
  linarith

/-! ## Evaluator scaffolding -/

/-- When both filtered order-block series are nonempty, `evaluate` is
the two-branch decision (no `IndexError`). -/
theorem evaluate_eq_of_obLast (df : List Candle) (b s : ℚ)
    (hb : obBullLast df = some b) (hs : obBearLast df = some s) :
    evaluate df =
      if lastClose df > ema200Last df ∧ volSpikeB df = true ∧ fvgBHold df = true ∧
          lastClose df ≥ b then
        EvalResult.ok (some (bullSignalOf df))
      else if lastClose df < ema200Last df ∧ volSpikeB df = true ∧ fvgSHold df = true ∧
          lastClose df ≤ s then
        EvalResult.ok (some (bearSignalOf df))
      else EvalResult.ok none := by
  unfold evaluate
  rw [hb, hs]

/-! ## Concrete runs on the engineered frames -/

theorem obBullLast_dfA : obBullLast dfA = some (49/5) := by decide

theorem obBearLast_dfA : obBearLast dfA = some (19/2) := by decide

theorem volSpikeB_dfA : volSpikeB dfA = true := by decide

theorem fvgBHold_dfA : fvgBHold dfA = true := by decide

theorem lastClose_dfA : lastClose dfA = 12 := by decide

theorem swingLowD_dfA : swingLowD dfA = 9 := by decide

theorem length_dfA : dfA.length = 210 := by decide

theorem ema200Last_dfA : ema200Last dfA < 12 := by
  have h : dfA = (⟨0, 10, 21/2, 47/5, 19/2, 10⟩ :: dfAtail) ++ [lastBarA] := rfl
  rw [h]
  exact ema200Last_lt_of_bounded _ _ _ (by norm_num) (by decide) rfl

theorem evaluate_dfA : evaluate dfA = EvalResult.ok (some sigA) := by
  rw [evaluate_eq_of_obLast dfA (49/5) (19/2) obBullLast_dfA obBearLast_dfA]
  rw [if_pos (show _ ∧ _ ∧ _ ∧ _ from
    ⟨by rw [lastClose_dfA]; exact ema200Last_dfA, volSpikeB_dfA, fvgBHold_dfA,
     by rw [lastClose_dfA]; norm_num⟩)]
  have hsig : bullSignalOf dfA = sigA := by
    unfold bullSignalOf
    rw [lastClose_dfA, swingLowD_dfA]
    norm_num [sigA]
  rw [hsig]

theorem obBullLast_dfB : obBullLast dfB = some (49/5) := by decide

theorem obBearLast_dfB : obBearLast dfB = some (19/2) := by decide

theorem volSpikeB_dfB : volSpikeB dfB = true := by decide

theorem fvgBHold_dfB : fvgBHold dfB = true := by decide

theorem lastClose_dfB : lastClose dfB = 12 := by decide

theorem swingLowD_dfB : swingLowD dfB = 9 := by decide

theorem ema200Last_dfB : ema200Last dfB < 12 := by
  have h : dfB = (⟨0, 10, 21/2, 47/5, 19/2, 10⟩ :: dfAtail) ++ [lastBarB] := rfl
  rw [h]
  exact ema200Last_lt_of_bounded _ _ _ (by norm_num) (by decide) rfl

theorem evaluate_dfB : evaluate dfB = EvalResult.ok (some sigA) := by
  rw [evaluate_eq_of_obLast dfB (49/5) (19/2) obBullLast_dfB obBearLast_dfB]
  rw [if_pos (show _ ∧ _ ∧ _ ∧ _ from
    ⟨by rw [lastClose_dfB]; exact ema200Last_dfB, volSpikeB_dfB, fvgBHold_dfB,
     by rw [lastClose_dfB]; norm_num⟩)]
  have hsig : bullSignalOf dfB = sigA := by
    unfold bullSignalOf
    rw [lastClose_dfB, swingLowD_dfB]
    norm_num [sigA]
  rw [hsig]

theorem lastClose_dfCrash : lastClose dfCrash = 12 := by decide

theorem ema200Last_dfCrash : ema200Last dfCrash < 12 := by
  have h : dfCrash = (flatC 0 :: dfCrashTail) ++ [lastBarA] := rfl
  rw [h]
  exact ema200Last_lt_of_bounded _ _ _ (by norm_num [flatC]) (by decide) rfl

theorem evaluate_dfCrash : evaluate dfCrash = EvalResult.indexError := by decide

theorem bullConds_dfCrash : bullConds dfCrash :=
  ⟨by rw [lastClose_dfCrash]; exact ema200Last_dfCrash, by decide, by decide, by decide⟩

/-! ## State-store lemmas -/

/-- `save_last_signal` writes exactly the given entry at the given key
and leaves every other key's binding unchanged. -/
theorem lookupH_save_frame (sym s : String) (t : ℕ) (d : Direction) (h : History) :
    lookupH (save_last_signal h sym t d) s =
      if s = sym then some ⟨t, d⟩ else lookupH h s := by
  induction h with
  | nil =>
    simp only [save_last_signal, lookupH]
    split_ifs with h1 h2 h3
    · rfl
    · exact absurd h1.symm h2
    · exact absurd h3.symm h1
    · rfl
  | cons kv rest ih =>
    obtain ⟨k, v⟩ := kv
    by_cases hk : k = sym
    · subst hk
      simp only [save_last_signal, if_pos rfl, lookupH]
      split_ifs with h1 h2 h3
      · rfl
      · exact absurd h1.symm h2
      · exact absurd h3.symm h1
      · rfl
    · simp only [save_last_signal, if_neg hk, lookupH]
      by_cases hks : k = s
      · subst hks
        rw [if_pos rfl, if_neg hk, if_pos rfl]
      · rw [if_neg hks, ih, if_neg hks]

/-- Looking up the key just saved. -/
theorem lookupH_save (h : History) (sym : String) (t : ℕ) (d : Direction) :
    lookupH (save_last_signal h sym t d) sym = some ⟨t, d⟩ := by
  rw [lookupH_save_frame, if_pos rfl]

/-! ## Per-symbol pass scaffolding -/

/-- The shape of one pass once the evaluator has produced a signal:
the dedup check decides between alert-and-save and no-op. -/
theorem analyze_symbol_signal (env : Env) (hist : History) (sym : String)
    (df : List Candle) (sig : Signal) (hlen : ¬ df.length < 200)
    (he : evaluate df = EvalResult.ok (some sig)) :
    analyze_symbol env hist sym df =
      if (match lookupH hist sym with
          | some e => !(decide (e.timestamp = (lastCandle df).timestamp) &&
              decide (e.direction = sig.dir))
          | none => true) = true then
        ⟨some sig, false,
          if env.webhookPresent && env.deliveryOk then
            some ((lastCandle df).timestamp, sig.dir)
          else none,
          save_last_signal hist sym (lastCandle df).timestamp sig.dir⟩
      else ⟨some sig, false, none, hist⟩ := by
  unfold analyze_symbol
  rw [if_neg hlen, he]

/-! ## Concrete passes -/

theorem pass_dfA_envOn :
    analyze_symbol envOn [] "BTC_USDT" dfA =
      ⟨some sigA, false, some (209, Direction.bullish),
       [("BTC_USDT", ⟨209, Direction.bullish⟩)]⟩ := by
  rw [analyze_symbol_signal envOn [] "BTC_USDT" dfA sigA (by decide) evaluate_dfA]
  decide

theorem pass_dfB_after :
    analyze_symbol envOn [("BTC_USDT", ⟨209, Direction.bullish⟩)] "BTC_USDT" dfB =
      ⟨some sigA, false, some (999, Direction.bullish),
       [("BTC_USDT", ⟨999, Direction.bullish⟩)]⟩ := by
  rw [analyze_symbol_signal envOn [("BTC_USDT", ⟨209, Direction.bullish⟩)]
    "BTC_USDT" dfB sigA (by decide) evaluate_dfB]
  decide

theorem pass_dfA_after :
    analyze_symbol envOn [("BTC_USDT", ⟨999, Direction.bullish⟩)] "BTC_USDT" dfA =
      ⟨some sigA, false, some (209, Direction.bullish),
       [("BTC_USDT", ⟨209, Direction.bullish⟩)]⟩ := by
  rw [analyze_symbol_signal envOn [("BTC_USDT", ⟨999, Direction.bullish⟩)]
    "BTC_USDT" dfA sigA (by decide) evaluate_dfA]
  decide

theorem pass_dfA_envOff :
    analyze_symbol envOff [] "BTC_USDT" dfA =
      ⟨some sigA, false, none, [("BTC_USDT", ⟨209, Direction.bullish⟩)]⟩ := by
  rw [analyze_symbol_signal envOff [] "BTC_USDT" dfA sigA (by decide) evaluate_dfA]
  decide

theorem pass_dfA_envFail :
    analyze_symbol envFail [] "BTC_USDT" dfA =
      ⟨some sigA, false, none, [("BTC_USDT", ⟨209, Direction.bullish⟩)]⟩ := by
  rw [analyze_symbol_signal envFail [] "BTC_USDT" dfA sigA (by decide) evaluate_dfA]
  decide

theorem runPasses_three :
    runPasses envOn "BTC_USDT" [] [dfA, dfB, dfA] =
      [some (209, Direction.bullish), some (999, Direction.bullish),
       some (209, Direction.bullish)] := by
  simp only [runPasses, pass_dfA_envOn, pass_dfB_after, pass_dfA_after]

/-! ## Order-block characterization -/

/-- The held bullish order-block level is the low of the candle right
after the most recent confirmed order-block candle. -/
theorem obBullLast_eq (df : List Candle) (i : ℕ) (hob : bullOBAt df i = true)
    (hlatest : ∀ j, j < df.length → i < j → bullOBAt df j = false) :
    obBullLast df = some ((getC df (i + 1)).low) := by
  have hlen : i + 1 < df.length := by
    unfold bullOBAt at hob
    simp only [Bool.and_eq_true, decide_eq_true_eq] at hob
    exact hob.1.2
  unfold obBullLast obBullList
  rw [List.getLast?_map,
    getLast?_filter_range (obMaskBull df) df.length (i + 1) hlen
      (by simp [obMaskBull, Nat.add_sub_cancel, hob])
      (fun j hj hij => by
        have h1 : bullOBAt df (j - 1) = false := hlatest (j - 1) (by omega) (by omega)
        simp [obMaskBull, h1])]
  rfl

/-- Bearish mirror of `obBullLast_eq`. -/
theorem obBearLast_eq (df : List Candle) (i : ℕ) (hob : bearOBAt df i = true)
    (hlatest : ∀ j, j < df.length → i < j → bearOBAt df j = false) :
    obBearLast df = some ((getC df (i + 1)).high) := by
  have hlen : i + 1 < df.length := by
    unfold bearOBAt at hob
    simp only [Bool.and_eq_true, decide_eq_true_eq] at hob
    exact hob.1.2
  unfold obBearLast obBearList
  rw [List.getLast?_map,
    getLast?_filter_range (obMaskBear df) df.length (i + 1) hlen
      (by simp [obMaskBear, Nat.add_sub_cancel, hob])
      (fun j hj hij => by
        have h1 : bearOBAt df (j - 1) = false := hlatest (j - 1) (by omega) (by omega)
        simp [obMaskBear, h1])]
  rfl

/-! ## Fair-value-gap characterization -/

theorem fvgUpRaw_length (df : List Candle) : (fvgUpRaw df).length = df.length := by
  simp [fvgUpRaw]

theorem fvgDownRaw_length (df : List Candle) : (fvgDownRaw df).length = df.length := by
  simp [fvgDownRaw]

theorem fvgUpRaw_getD (df : List Candle) (i : ℕ) (hi : i < df.length) :
    (fvgUpRaw df).getD i none =
      if fvgBullCond df i then some ((getC df i).low) else none := by
  unfold fvgUpRaw
  exact getD_map_range df.length _ none i hi

theorem fvgDownRaw_getD (df : List Candle) (i : ℕ) (hi : i < df.length) :
    (fvgDownRaw df).getD i none =
      if fvgBearCond df i then some ((getC df i).high) else none := by
  unfold fvgDownRaw
  exact getD_map_range df.length _ none i hi

/-- The gap-floor series at a gap position is the gap value, and at a
non-gap position is the previous value of the series. -/
theorem fvgUpList_getD (df : List Candle) (i : ℕ) (hi : i < df.length) :
    (fvgUpList df).getD i none =
      if fvgBullCond df i then some ((getC df i).low)
      else if i = 0 then none else (fvgUpList df).getD (i - 1) none := by
  unfold fvgUpList ffill
  rw [ffillAux_getD (fvgUpRaw df) none i (by rw [fvgUpRaw_length]; exact hi),
    fvgUpRaw_getD df i hi]
  by_cases hc : fvgBullCond df i = true
  · simp [hc]
  · simp [hc]

theorem fvgDownList_getD (df : List Candle) (i : ℕ) (hi : i < df.length) :
    (fvgDownList df).getD i none =
      if fvgBearCond df i then some ((getC df i).high)
      else if i = 0 then none else (fvgDownList df).getD (i - 1) none := by
  unfold fvgDownList ffill
  rw [ffillAux_getD (fvgDownRaw df) none i (by rw [fvgDownRaw_length]; exact hi),
    fvgDownRaw_getD df i hi]
  by_cases hc : fvgBearCond df i = true
  · simp [hc]
  · simp [hc]

/-- Before any defined raw entry the forward fill is still undefined. -/
theorem ffillAux_none_getD (l : List (Option ℚ)) :
    ∀ i, i < l.length → (∀ k, k ≤ i → l.getD k none = none) →
      (ffillAux none l).getD i none = none := by
  intro i
  induction i with
  | zero =>
    intro hi hall
    rw [ffillAux_getD l none 0 hi, hall 0 (le_refl 0)]
    simp
  | succ j ih =>
    intro hi hall
    rw [ffillAux_getD l none (j + 1) hi, hall (j + 1) (le_refl _)]
    simpa using ih (by omega) (fun k hk => hall k (by omega))

/-- The gap-floor series is undefined at every position up to which no
gap condition has held. -/
theorem fvgUpList_none (df : List Candle) (i : ℕ) (hi : i < df.length)
    (hall : ∀ k, k ≤ i → fvgBullCond df k = false) :
    (fvgUpList df).getD i none = none := by
  unfold fvgUpList ffill
  apply ffillAux_none_getD (fvgUpRaw df) i (by rw [fvgUpRaw_length]; exact hi)
  intro k hk
  rw [fvgUpRaw_getD df k (by omega), hall k hk]
  rfl

theorem fvgDownList_none (df : List Candle) (i : ℕ) (hi : i < df.length)
    (hall : ∀ k, k ≤ i → fvgBearCond df k = false) :
    (fvgDownList df).getD i none = none := by
  unfold fvgDownList ffill
  apply ffillAux_none_getD (fvgDownRaw df) i (by rw [fvgDownRaw_length]; exact hi)
  intro k hk
  rw [fvgDownRaw_getD df k (by omega), hall k hk]
  rfl

/-! ## Swing-level bound -/

theorem mem_of_getLast? {γ : Type} {l : List γ} {z : γ} (h : l.getLast? = some z) :
    z ∈ l := by
  obtain ⟨hne, hz⟩ := List.mem_getLast?_eq_getLast (l := l) (x := z) (by rw [h]; rfl)
  rw [hz]
  exact List.getLast_mem hne

/-- The rolling 5-bar swing low is at most the last candle's low. -/
theorem swingLowD_le_lastLow (df : List Candle) (h5 : 5 ≤ df.length) :
    swingLowD df ≤ (lastCandle df).low := by
  have hne : df ≠ [] := by
    intro h
    rw [h] at h5
    simp at h5
  unfold swingLowD swingLowLast
  rw [if_neg (by omega)]
  have hlen : df.length - 5 < (lows df).length := by
    unfold lows
    rw [List.length_map]
    omega
  have hlast : ((lows df).drop (df.length - 5)).getLast? = some ((lastCandle df).low) := by
    rw [getLast?_drop_of_lt _ _ hlen]
    unfold lows
    rw [List.getLast?_map, List.getLast?_eq_getLast_of_ne_nil hne]
    unfold lastCandle
    rw [List.getLast?_eq_getLast_of_ne_nil hne]
    rfl
  have hmem : (lastCandle df).low ∈ (lows df).drop (df.length - 5) := mem_of_getLast? hlast
  cases hmin : listMin ((lows df).drop (df.length - 5)) with
  | none =>
    cases hdrop : (lows df).drop (df.length - 5) with
    | nil => rw [hdrop] at hlast; simp at hlast
    | cons y ys => rw [hdrop] at hmin; simp [listMin] at hmin
  | some m =>
    rw [Option.getD_some]
    exact listMin_le_of_mem _ m _ hmin hmem

/-! ## EMA monotone bounds -/

/-- For a nondecreasing input chain, every scanl-EMA output lies between
the global lower bound and its own input. -/
theorem ema_scanl_mono_le (a lo : ℚ) (h0 : 0 ≤ a) (h1 : a ≤ 1) (xs : List ℚ) :
    ∀ (b c : ℚ), lo ≤ b → b ≤ c → List.Chain (· ≤ ·) c xs →
      List.Forall₂ (fun y x => lo ≤ y ∧ y ≤ x) (List.scanl (emaStep a) b xs) (c :: xs) := by
  induction xs with
  | nil =>
    intro b c hlob hbc _
    rw [List.scanl_nil]
    exact List.Forall₂.cons ⟨hlob, hbc⟩ List.Forall₂.nil
  | cons x xs ih =>
    intro b c hlob hbc hchain
    rw [List.scanl_cons, List.singleton_append]
    have hcx : c ≤ x := (List.chain_cons.mp hchain).1
    have hchx : List.Chain (· ≤ ·) x xs := (List.chain_cons.mp hchain).2
    refine List.Forall₂.cons ⟨hlob, hbc⟩ ?_
    exact ih (emaStep a b x) x
      (le_emaStep_of_le a lo b x h0 h1 hlob (le_trans hlob (le_trans hbc hcx)))
      (emaStep_le_of_le a x b x h0 h1 (le_trans hbc hcx) (le_refl x))
      hchx

/-- For a nonincreasing input chain, every scanl-EMA output lies between
its own input and the global upper bound. -/
theorem ema_scanl_anti (a hi : ℚ) (h0 : 0 ≤ a) (h1 : a ≤ 1) (xs : List ℚ) :
    ∀ (b c : ℚ), b ≤ hi → c ≤ b → List.Chain (· ≥ ·) c xs →
      List.Forall₂ (fun y x => x ≤ y ∧ y ≤ hi) (List.scanl (emaStep a) b xs) (c :: xs) := by
  induction xs with
  | nil =>
    intro b c hbhi hcb _
    rw [List.scanl_nil]
    exact List.Forall₂.cons ⟨hcb, hbhi⟩ List.Forall₂.nil
  | cons x xs ih =>
    intro b c hbhi hcb hchain
    rw [List.scanl_cons, List.singleton_append]
    have hcx : x ≤ c := (List.chain_cons.mp hchain).1
    have hchx : List.Chain (· ≥ ·) x xs := (List.chain_cons.mp hchain).2
    refine List.Forall₂.cons ⟨hcb, hbhi⟩ ?_
    exact ih (emaStep a b x) x
      (emaStep_le_of_le a hi b x h0 h1 hbhi (le_trans hcx (le_trans hcb hbhi)))
      (le_emaStep_of_le a x b x h0 h1 (le_trans hcx hcb) (le_refl x))
      hchx

/-! ## Pass-level lemmas -/

/-- The decision of a pass does not depend on the environment, the
stored history, or the symbol name. -/
theorem decision_only_depends_on_df (e1 e2 : Env) (h1 h2 : History) (s1 s2 : String)
    (df : List Candle) :
    (analyze_symbol e1 h1 s1 df).decision = (analyze_symbol e2 h2 s2 df).decision := by
  unfold analyze_symbol
  by_cases hl : df.length < 200
  · rw [if_pos hl, if_pos hl]
  · rw [if_neg hl, if_neg hl]
    cases he : evaluate df with
    | indexError => rfl
    | ok os =>
      cases os with
      | none => rfl
      | some sig =>
        dsimp only
        simp only [apply_ite PassOutput.decision, ite_self]

/-- Re-running a pass that just alerted suppresses the alert and leaves
the stored history unchanged. -/
theorem second_pass_suppressed (env : Env) (h : History) (sym : String) (df : List Candle)
    (hal : (analyze_symbol env h sym df).alerted.isSome = true) :
    (analyze_symbol env (analyze_symbol env h sym df).history sym df).alerted = none ∧
    (analyze_symbol env (analyze_symbol env h sym df).history sym df).history =
      (analyze_symbol env h sym df).history := by
  by_cases hlen : df.length < 200
  · exfalso
    unfold analyze_symbol at hal
    rw [if_pos hlen] at hal
    simp at hal
  · cases he : evaluate df with
    | indexError =>
      exfalso
      unfold analyze_symbol at hal
      rw [if_neg hlen, he] at hal
      simp at hal
    | ok os =>
      cases os with
      | none =>
        exfalso
        unfold analyze_symbol at hal
        rw [if_neg hlen, he] at hal
        simp at hal
      | some sig =>
        rw [analyze_symbol_signal env h sym df sig hlen he] at hal
        by_cases hf : (match lookupH h sym with
            | some e => !(decide (e.timestamp = (lastCandle df).timestamp) &&
                decide (e.direction = sig.dir))
            | none => true) = true
        · rw [if_pos hf] at hal
          rw [analyze_symbol_signal env h sym df sig hlen he, if_pos hf]
          dsimp only
          rw [analyze_symbol_signal env
            (save_last_signal h sym (lastCandle df).timestamp sig.dir) sym df sig hlen he]
          rw [lookupH_save]
          simp
        · exfalso
          rw [if_neg hf] at hal
          simp at hal

/-! ## Claim theorems -/

/-- Claim C1 (amended): for every frame of length at least 200 whose
last candle is a well-formed OHLC candle (positive close, low at most
close), and on which at least one bearish order block was confirmed
(otherwise the evaluator raises, see C4), the evaluator produces a
BULLISH signal exactly when the last close exceeds the last EMA-200,
the last volume exceeds 1.5 times the 20-bar average, and both the
bullish gap floor and the bullish order-block floor are defined with
the close at or above them; the signal then has
`stop_loss = swing_low - p*0.0005`,
`take_profit = p + (p - stop_loss)*2.5`, satisfies
`stop_loss < entry = p < take_profit`, and its reward-to-risk quotient
is exactly 5/2. -/
theorem c1_bullish_signal_amended (df : List Candle)
    (h200 : 200 ≤ df.length)
    (hob : obBearLast df ≠ none)
    (hlow : (lastCandle df).low ≤ (lastCandle df).close)
    (hpos : 0 < (lastCandle df).close) :
    ((∃ s, evaluate df = EvalResult.ok (some s) ∧ s.dir = Direction.bullish) ↔
      bullConds df) ∧
    (bullConds df →
      evaluate df = EvalResult.ok (some (bullSignalOf df)) ∧
      (bullSignalOf df).entry = lastClose df ∧
      (bullSignalOf df).sl = swingLowD df - lastClose df * (1 / 2000) ∧
      (bullSignalOf df).tp =
        (bullSignalOf df).entry +
          ((bullSignalOf df).entry - (bullSignalOf df).sl) * (5 / 2) ∧
      (bullSignalOf df).sl < (bullSignalOf df).entry ∧
      (bullSignalOf df).entry < (bullSignalOf df).tp ∧
      ((bullSignalOf df).tp - (bullSignalOf df).entry) /
        ((bullSignalOf df).entry - (bullSignalOf df).sl) = 5 / 2) := by
  obtain ⟨os, hos⟩ := Option.ne_none_iff_exists'.mp hob
  have hswing : swingLowD df ≤ (lastCandle df).low := swingLowD_le_lastLow df (by omega)
  have hslp : swingLowD df - lastClose df * (1 / 2000) < lastClose df := by
    unfold lastClose
    linarith
  constructor
  · constructor
    · rintro ⟨s, hs, hdir⟩
      cases hb : obBullLast df with
      | none =>
        exfalso
        have hev : evaluate df = EvalResult.indexError := by
          unfold evaluate
          rw [hb, hos]
        rw [hev] at hs
        exact EvalResult.noConfusion hs
      | some b =>
        rw [evaluate_eq_of_obLast df b os hb hos] at hs
        by_cases hcond : lastClose df > ema200Last df ∧ volSpikeB df = true ∧
            fvgBHold df = true ∧ lastClose df ≥ b
        · refine ⟨hcond.1, hcond.2.1, hcond.2.2.1, ?_⟩
          unfold obBHold
          rw [hb]
          exact decide_eq_true hcond.2.2.2
        · rw [if_neg hcond] at hs
          by_cases hcond2 : lastClose df < ema200Last df ∧ volSpikeB df = true ∧
              fvgSHold df = true ∧ lastClose df ≤ os
          · rw [if_pos hcond2] at hs
            exfalso
            injection hs with h1
            injection h1 with h2
            rw [← h2] at hdir
            simp [bearSignalOf] at hdir
          · rw [if_neg hcond2] at hs
            exfalso
            injection hs with h1
            exact Option.noConfusion h1
    · intro hc
      obtain ⟨h1, h2, h3, h4⟩ := hc
      cases hb : obBullLast df with
      | none =>
        exfalso
        unfold obBHold at h4
        rw [hb] at h4
        exact Bool.noConfusion h4
      | some b =>
        have hge : lastClose df ≥ b := by
          unfold obBHold at h4
          rw [hb] at h4
          exact of_decide_eq_true h4
        refine ⟨bullSignalOf df, ?_, rfl⟩
        rw [evaluate_eq_of_obLast df b os hb hos, if_pos ⟨h1, h2, h3, hge⟩]
  · intro hc
    obtain ⟨h1, h2, h3, h4⟩ := hc
    cases hb : obBullLast df with
    | none =>
      exfalso
      unfold obBHold at h4
      rw [hb] at h4
      exact Bool.noConfusion h4
    | some b =>
      have hge : lastClose df ≥ b := by
        unfold obBHold at h4
        rw [hb] at h4
        exact of_decide_eq_true h4
      have hev : evaluate df = EvalResult.ok (some (bullSignalOf df)) := by
        rw [evaluate_eq_of_obLast df b os hb hos, if_pos ⟨h1, h2, h3, hge⟩]
      have hentry : (bullSignalOf df).entry = lastClose df := rfl
      have hsl : (bullSignalOf df).sl = swingLowD df - lastClose df * (1 / 2000) := rfl
      have htp : (bullSignalOf df).tp =
          (bullSignalOf df).entry +
            ((bullSignalOf df).entry - (bullSignalOf df).sl) * (5 / 2) := rfl
      have hlt : (bullSignalOf df).sl < (bullSignalOf df).entry := by
        rw [hentry, hsl]
        exact hslp
      have hrisk : 0 < (bullSignalOf df).entry - (bullSignalOf df).sl := sub_pos.mpr hlt
      have hm := mul_pos hrisk (show (0:ℚ) < 5 / 2 by norm_num)
      refine ⟨hev, hentry, hsl, htp, hlt, ?_, ?_⟩
      · rw [htp]
        linarith
      · rw [htp, add_sub_cancel_left, mul_comm, mul_div_assoc,
          div_self (ne_of_gt hrisk), mul_one]

/-- Witness for C1: the amended characterization instantiated on the
engineered 210-bar bullish frame `dfA`. -/
theorem c1_bullish_signal_witness :
    ((∃ s, evaluate dfA = EvalResult.ok (some s) ∧ s.dir = Direction.bullish) ↔
      bullConds dfA) ∧
    (bullConds dfA →
      evaluate dfA = EvalResult.ok (some (bullSignalOf dfA)) ∧
      (bullSignalOf dfA).entry = lastClose dfA ∧
      (bullSignalOf dfA).sl = swingLowD dfA - lastClose dfA * (1 / 2000) ∧
      (bullSignalOf dfA).tp =
        (bullSignalOf dfA).entry +
          ((bullSignalOf dfA).entry - (bullSignalOf dfA).sl) * (5 / 2) ∧
      (bullSignalOf dfA).sl < (bullSignalOf dfA).entry ∧
      (bullSignalOf dfA).entry < (bullSignalOf dfA).tp ∧
      ((bullSignalOf dfA).tp - (bullSignalOf dfA).entry) /
        ((bullSignalOf dfA).entry - (bullSignalOf dfA).sl) = 5 / 2) :=
  c1_bullish_signal_amended dfA (by decide)
    (by rw [obBearLast_dfA]; exact Option.some_ne_none _)
    (by decide) (by decide)

/-- Claim C1 (counterexample): on `dfCrash` every bullish confluence
condition of the claim holds at the last bar, yet evaluation raises
`IndexError` (no bearish order block was ever confirmed, so
`ob_bear.iloc[-1]` fails) instead of producing the BULLISH signal,
refuting the unconditional "exactly when". -/
theorem c1_counterexample :
    bullConds dfCrash ∧ evaluate dfCrash = EvalResult.indexError ∧
    ¬(∃ s, evaluate dfCrash = EvalResult.ok (some s) ∧ s.dir = Direction.bullish) := by
  refine ⟨bullConds_dfCrash, evaluate_dfCrash, ?_⟩
  rintro ⟨s, hs, -⟩
  rw [evaluate_dfCrash] at hs
  exact EvalResult.noConfusion hs

/-- Claim C2 (counterexample): in `dfOB` the only confirmed bullish
order-block candle sits at position 0 with low 1/2, but the held floor
is 6/5 — the low of the *confirming* candle at position 1, not the low
of the order-block candle itself. -/
theorem c2_counterexample :
    bullOBAt dfOB 0 = true ∧
    (getC dfOB 0).low = 1/2 ∧
    (getC dfOB 1).low = 6/5 ∧
    obBullLast dfOB = some (6/5) ∧
    obBullLast dfOB ≠ some ((getC dfOB 0).low) := by decide

/-- Claim C2 (amended): when the most recent confirmed bullish
order-block candle sits at position i, the held bullish floor is
`low[i+1]` — the low of the confirming candle one bar later — and
symmetrically the held bearish ceiling is `high[i+1]`. -/
theorem c2_order_block_amended (df : List Candle) :
    (∀ i, bullOBAt df i = true →
      (∀ j, j < df.length → i < j → bullOBAt df j = false) →
      obBullLast df = some ((getC df (i + 1)).low)) ∧
    (∀ i, bearOBAt df i = true →
      (∀ j, j < df.length → i < j → bearOBAt df j = false) →
      obBearLast df = some ((getC df (i + 1)).high)) :=
  ⟨fun i hob hl => obBullLast_eq df i hob hl,
   fun i hob hl => obBearLast_eq df i hob hl⟩

/-- Witness for C2 on `dfW`: a confirmed bullish order block at 0 and a
confirmed bearish one at 2. -/
theorem c2_order_block_witness :
    obBullLast dfW = some ((getC dfW 1).low) ∧
    obBearLast dfW = some ((getC dfW 3).high) :=
  ⟨(c2_order_block_amended dfW).1 0 (by decide) (by decide),
   (c2_order_block_amended dfW).2 2 (by decide) (by decide)⟩

/-- Claim C3 (code bug): on a pass with a fresh BULLISH signal where no
notification can go out — webhook URL absent, or delivery failing —
the code still writes the new history entry, violating the
"updated iff notified" invariant. -/
theorem c3_history_written_without_notification :
    ((analyze_symbol envOff [] "BTC_USDT" dfA).alerted = none ∧
      (analyze_symbol envOff [] "BTC_USDT" dfA).history =
        [("BTC_USDT", ⟨209, Direction.bullish⟩)]) ∧
    ((analyze_symbol envFail [] "BTC_USDT" dfA).alerted = none ∧
      (analyze_symbol envFail [] "BTC_USDT" dfA).history =
        [("BTC_USDT", ⟨209, Direction.bullish⟩)]) := by
  rw [pass_dfA_envOff, pass_dfA_envFail]
  exact ⟨⟨rfl, rfl⟩, ⟨rfl, rfl⟩⟩

/-- Claim C4 (code bug): a 205-bar flat frame confirms no order block,
so the filtered `ob_bull`/`ob_bear` series are empty and evaluation
raises `IndexError` instead of treating the confirmations as false
(the undefined gap value, by contrast, is handled). -/
theorem c4_missing_ob_raises :
    200 ≤ dfFlat.length ∧ obBullLast dfFlat = none ∧ fvgUpLast dfFlat = none ∧
    evaluate dfFlat = EvalResult.indexError := by decide

/-- Claim C5 (counterexample): seeding an empty history and running the
passes dfA, dfB (same data, new candle timestamp), dfA again delivers
the alert for the triple (BTC_USDT, 209, BULLISH) twice — the
single-entry history only remembers the immediately preceding alert. -/
theorem c5_counterexample :
    (runPasses envOn "BTC_USDT" [] [dfA, dfB, dfA]).count
      (some (209, Direction.bullish)) = 2 := by
  rw [runPasses_three]
  decide

/-- Claim C5 (amended): the dedup suppresses exactly a repeat of the
immediately preceding alert: a pass that just alerted, re-run on the
same frame against the history it wrote, sends nothing and leaves the
history unchanged — so two identical pipeline runs produce exactly one
notification and one history write. -/
theorem c5_dedup_amended (env : Env) (h : History) (sym : String) (df : List Candle)
    (hal : (analyze_symbol env h sym df).alerted.isSome = true) :
    (analyze_symbol env (analyze_symbol env h sym df).history sym df).alerted = none ∧
    (analyze_symbol env (analyze_symbol env h sym df).history sym df).history =
      (analyze_symbol env h sym df).history :=
  second_pass_suppressed env h sym df hal

/-- Witness for C5: the double run on `dfA` from the empty history. -/
theorem c5_dedup_witness :
    (analyze_symbol envOn (analyze_symbol envOn [] "BTC_USDT" dfA).history
      "BTC_USDT" dfA).alerted = none ∧
    (analyze_symbol envOn (analyze_symbol envOn [] "BTC_USDT" dfA).history
      "BTC_USDT" dfA).history = (analyze_symbol envOn [] "BTC_USDT" dfA).history :=
  c5_dedup_amended envOn [] "BTC_USDT" dfA (by rw [pass_dfA_envOn]; rfl)

/-- Claim C6: a frame shorter than 200 bars (the empty frame included)
yields no decision and no error, sends no notification, and leaves the
history unchanged. -/
theorem c6_short_input_no_action (env : Env) (h : History) (sym : String)
    (df : List Candle) (hlen : df.length < 200) :
    analyze_symbol env h sym df = ⟨none, false, none, h⟩ := by
  unfold analyze_symbol
  rw [if_pos hlen]

/-- Witness for C6 on the empty frame. -/
theorem c6_short_input_witness :
    analyze_symbol envOn [] "BTC_USDT" [] = ⟨none, false, none, []⟩ :=
  c6_short_input_no_action envOn [] "BTC_USDT" [] (by decide)

/-- Claim C7: the bullish gap-floor series equals `low[i]` at every
position where `low[i] > high[i-2]` holds (which requires i ≥ 2),
repeats its previous value at every other position (so it is undefined
at positions 0 and 1 and stays undefined until the first gap), and
symmetrically the bearish ceiling equals `high[i]` where
`high[i] < low[i-2]`, forward-filled elsewhere. -/
theorem c7_fvg_characterization (df : List Candle) (i : ℕ) (hi : i < df.length) :
    ((fvgUpList df).getD i none =
      if fvgBullCond df i then some ((getC df i).low)
      else if i = 0 then none else (fvgUpList df).getD (i - 1) none) ∧
    ((fvgDownList df).getD i none =
      if fvgBearCond df i then some ((getC df i).high)
      else if i = 0 then none else (fvgDownList df).getD (i - 1) none) ∧
    ((∀ k, k ≤ i → fvgBullCond df k = false) → (fvgUpList df).getD i none = none) ∧
    ((∀ k, k ≤ i → fvgBearCond df k = false) → (fvgDownList df).getD i none = none) :=
  ⟨fvgUpList_getD df i hi, fvgDownList_getD df i hi,
   fun hall => fvgUpList_none df i hi hall,
   fun hall => fvgDownList_none df i hi hall⟩

/-- Witness for C7 at position 3 of `dfGap` (the bar after its gap). -/
theorem c7_fvg_witness :
    ((fvgUpList dfGap).getD 3 none =
      if fvgBullCond dfGap 3 then some ((getC dfGap 3).low)
      else if 3 = 0 then none else (fvgUpList dfGap).getD (3 - 1) none) ∧
    ((fvgDownList dfGap).getD 3 none =
      if fvgBearCond dfGap 3 then some ((getC dfGap 3).high)
      else if 3 = 0 then none else (fvgDownList dfGap).getD (3 - 1) none) ∧
    ((∀ k, k ≤ 3 → fvgBullCond dfGap k = false) →
      (fvgUpList dfGap).getD 3 none = none) ∧
    ((∀ k, k ≤ 3 → fvgBearCond dfGap k = false) →
      (fvgDownList dfGap).getD 3 none = none) :=
  c7_fvg_characterization dfGap 3 (by decide)

/-- Claim C8: the first EMA output equals the first input, and over a
monotone input series every EMA output stays within the band of inputs
seen so far, never overshooting the current input (for a nondecreasing
series) nor undershooting it (for a nonincreasing one).  The hypothesis
on the period mirrors the pandas requirement `span >= 1`. -/
theorem c8_ema_properties (s : List ℚ) (period : ℕ) (hp : 1 ≤ period) :
    (ema s period).head? = s.head? ∧
    (List.Chain' (· ≤ ·) s →
      List.Forall₂ (fun y x => s.headD 0 ≤ y ∧ y ≤ x) (ema s period) s) ∧
    (List.Chain' (· ≥ ·) s →
      List.Forall₂ (fun y x => x ≤ y ∧ y ≤ s.headD 0) (ema s period) s) := by
  have h0 : (0:ℚ) ≤ 2 / ((period : ℚ) + 1) := by positivity
  have h1 : 2 / ((period : ℚ) + 1) ≤ 1 := by
    rw [div_le_one (by positivity)]
    have h2 : (1:ℚ) ≤ (period : ℚ) := by exact_mod_cast hp
    linarith
  cases s with
  | nil => exact ⟨rfl, fun _ => List.Forall₂.nil, fun _ => List.Forall₂.nil⟩
  | cons x xs =>
    refine ⟨?_, fun hc => ?_, fun hc => ?_⟩
    · cases xs <;> rfl
    · have h := ema_scanl_mono_le (2 / ((period : ℚ) + 1)) x h0 h1 xs x x
        (le_refl x) (le_refl x) hc
      simpa [ema] using h
    · have h := ema_scanl_anti (2 / ((period : ℚ) + 1)) x h0 h1 xs x x
        (le_refl x) (le_refl x) hc
      simpa [ema] using h

/-- Witness for C8 on the nondecreasing series [1, 2, 3] with period 2. -/
theorem c8_ema_witness :
    (ema [(1:ℚ), 2, 3] 2).head? = [(1:ℚ), 2, 3].head? ∧
    (List.Chain' (· ≤ ·) [(1:ℚ), 2, 3] →
      List.Forall₂ (fun y x => [(1:ℚ), 2, 3].headD 0 ≤ y ∧ y ≤ x)
        (ema [(1:ℚ), 2, 3] 2) [(1:ℚ), 2, 3]) ∧
    (List.Chain' (· ≥ ·) [(1:ℚ), 2, 3] →
      List.Forall₂ (fun y x => x ≤ y ∧ y ≤ [(1:ℚ), 2, 3].headD 0)
        (ema [(1:ℚ), 2, 3] 2) [(1:ℚ), 2, 3]) :=
  c8_ema_properties [1, 2, 3] 2 (by decide)

/-- Claim C9: a put replaces only the given symbol's entry with the new
timestamp and direction and leaves every other symbol's stored entry
unchanged and present. -/
theorem c9_save_frame (h : History) (sym s : String) (t : ℕ) (d : Direction) :
    lookupH (save_last_signal h sym t d) s =
      if s = sym then some ⟨t, d⟩ else lookupH h s :=
  lookupH_save_frame sym s t d h

/-- Claim C10: the computed trade decision — direction, stop-loss and
take-profit — is a pure function of the candle frame: it is identical
across environments, stored histories and symbol names, so two
evaluations of the same data always agree. -/
theorem c10_decision_deterministic (e1 e2 : Env) (h1 h2 : History)
    (s1 s2 : String) (df : List Candle) :
    (analyze_symbol e1 h1 s1 df).decision = (analyze_symbol e2 h2 s2 df).decision :=
  decision_only_depends_on_df e1 e2 h1 h2 s1 s2 df
